import Mathlib

/-
Verification of the bill-extraction pipeline (FastAPI + vision-model service).

This file gives a shallow embedding, in Lean 4, of the page-extraction
pipeline of the repository:

  * `services.py`  — `clean_and_validate_items` (the Item Sanitizer),
                     `extract_data_from_image_async` (the Page Extractor);
  * `main.py`      — the `extract_bill_data` endpoint's aggregation loop
                     (the Aggregator) and the `asyncio.gather` fan-out
                     (the Concurrency Scheduler).

Modelling conventions:

  * Python floats are modelled as exact rationals (`ℚ`).  All concrete
    inputs used in counterexamples and witnesses are integer-valued, so
    no binary-floating-point artefact is being exploited anywhere.
  * Python's `round(x, 2)` (round-half-to-even at two decimals) is
    modelled by `round2` below, using round-half-to-even on `100 * x`.
    Concrete inputs in this file avoid exact .xx5 ties, where the
    decimal model and binary floats could differ.
  * JSON values (the output of `json.loads`) are modelled by `PyVal`;
    Python exceptions relevant to the sanitizer are modelled by `PyErr`
    (`ValueError` vs `TypeError` — the sanitizer's `except ValueError`
    treats the two differently, which matters below).
  * `str.strip()` is modelled by `pyStrip` (ASCII whitespace; the
    pipeline only ever strips names coming from JSON strings).
-/

/-- PyErr models the Python exceptions that can escape a `float(...)`
coercion inside the sanitizer: `ValueError` (unparseable string) and
`TypeError` (value of a non-numeric, non-string type such as a list). -/
inductive PyErr where
  | valueError
  | typeError
deriving DecidableEq, Repr

/-- PyVal models a Python value decoded from JSON (`json.loads` output):
`None`, booleans, numbers, strings, lists and dicts. -/
inductive PyVal where
  | vnone
  | vbool (b : Bool)
  | vnum (q : ℚ)
  | vstr (s : String)
  | vlist (xs : List PyVal)
  | vdict (kvs : List (String × PyVal))

/-- Python truthiness (`bool(v)`): `None`, `False`, `0`, `""`, `[]` and
an empty dict are falsy; everything else is truthy. -/
def PyVal.truthy : PyVal → Bool
  | .vnone => false
  | .vbool b => b
  | .vnum q => !(q == 0)
  | .vstr s => !(s == "")
  | .vlist xs => !xs.isEmpty
  | .vdict kvs => !kvs.isEmpty

/-- Python `str(v)`.  Only the string case is ever exercised by a claim
(item names in the test inputs are JSON strings); the remaining cases
abstract Python's `repr`-style rendering and are never pattern-matched
on by any theorem in this file. -/
def pyStr : PyVal → String
  | .vstr s => s
  | .vnone => "None"
  | .vbool true => "True"
  | .vbool false => "False"
  | .vnum q => toString q
  | .vlist _ => "[list]"
  | .vdict _ => "[dict]"

/-- isSpace recognises the ASCII whitespace stripped by `str.strip()`
(space, tab, newline, carriage return, vertical tab, form feed). -/
def isSpace (c : Char) : Bool :=
  [' ', '\t', '\n', '\r', Char.ofNat 11, Char.ofNat 12].contains c

/-- stripChars removes leading and trailing whitespace characters from a
character list — the character-level content of Python's `str.strip()`. -/
def stripChars (l : List Char) : List Char :=
  ((l.dropWhile isSpace).reverse.dropWhile isSpace).reverse

/-- pyStrip models Python's `str.strip()` (no arguments): remove leading
and trailing whitespace. -/
def pyStrip (s : String) : String :=
  String.mk (stripChars s.data)

/-- containsSub models Python's substring test `pat in s` on character
lists: `pat` occurs contiguously inside `s`. -/
def containsSub (pat : List Char) : List Char → Bool
  | [] => pat.isEmpty
  | c :: cs => pat.isPrefixOf (c :: cs) || containsSub pat cs

/-- strContains is Python's `pat in s` for strings. -/
def strContains (s pat : String) : Bool :=
  containsSub pat.data s.data

/-- digitsToNat folds a list of decimal digit characters into a natural
number. -/
def digitsToNat (ds : List Char) : ℕ :=
  ds.foldl (fun a c => 10 * a + (c.toNat - 48)) 0

/-- isDigit10 recognises a decimal digit character. -/
def isDigit10 (c : Char) : Bool :=
  '0' ≤ c && c ≤ '9'

/-- parseExpPart parses the optional exponent tail `([eE][+-]?digits)?`
of a Python/JSON decimal literal.  Returns the signed exponent, and
requires the remainder to be empty (the whole string must be consumed). -/
def parseExpPart (cs : List Char) : Option ℤ :=
  match cs with
  | [] => some 0
  | e :: rest =>
    if e == 'e' || e == 'E' then
      let (sgn, rest') : ℤ × List Char :=
        match rest with
        | '+' :: t => (1, t)
        | '-' :: t => (-1, t)
        | t => (1, t)
      let ds := rest'.takeWhile isDigit10
      let tail := rest'.dropWhile isDigit10
      if ds.isEmpty || !tail.isEmpty then none
      else some (sgn * (digitsToNat ds : ℤ))
    else none

/-- applyExp multiplies a rational by `10 ^ e` for a signed exponent. -/
def applyExp (q : ℚ) (e : ℤ) : ℚ :=
  if e < 0 then q / (10 : ℚ) ^ e.natAbs else q * (10 : ℚ) ^ e.natAbs

/-- parseDecimal parses the body of a Python `float(...)` string
argument (after whitespace stripping): `[+-]? digits [. digits?]?` or
`[+-]? . digits`, with an optional exponent.  Special values (`inf`,
`nan`) and PEP-515 underscores are not modelled; no claim involves
them.  Returns `none` exactly when Python would raise `ValueError`. -/
def parseDecimal (cs : List Char) : Option ℚ :=
  let (sgn, body) : ℚ × List Char :=
    match cs with
    | '+' :: t => (1, t)
    | '-' :: t => (-1, t)
    | t => (1, t)
  let intDs := body.takeWhile isDigit10
  let afterInt := body.dropWhile isDigit10
  match afterInt with
  | '.' :: fracTail =>
    let fracDs := fracTail.takeWhile isDigit10
    let afterFrac := fracTail.dropWhile isDigit10
    if intDs.isEmpty && fracDs.isEmpty then none
    else
      match parseExpPart afterFrac with
      | none => none
      | some e =>
        some (sgn * applyExp
          ((digitsToNat intDs : ℚ) +
            (digitsToNat fracDs : ℚ) / (10 : ℚ) ^ fracDs.length) e)
  | rest =>
    if intDs.isEmpty then none
    else
      match parseExpPart rest with
      | none => none
      | some e => some (sgn * applyExp (digitsToNat intDs : ℚ) e)

/-- pyFloat models Python's `float(v)` applied to a JSON-decoded value:
numbers pass through, booleans become 0/1, strings are stripped and
parsed as decimal literals (`ValueError` on failure), and `None`, lists
and dicts raise `TypeError`. -/
def pyFloat : PyVal → Except PyErr ℚ
  | .vnum q => .ok q
  | .vbool b => .ok (if b then 1 else 0)
  | .vstr s =>
    match parseDecimal (stripChars s.data) with
    | some q => .ok q
    | none => .error .valueError
  | .vnone => .error .typeError
  | .vlist _ => .error .typeError
  | .vdict _ => .error .typeError

/-- BANNED_KEYWORDS — transcribed from `services.py`: keywords that mark
a bill row as a summary/total row to be filtered out. -/
def BANNED_KEYWORDS : List String :=
  ["total", "subtotal", "sub total", "net amount", "grand total",
   "tax", "gst", "vat", "discount", "round off", "balance", "amount due",
   "gross amount", "cgst", "sgst", "igst", "total amount"]

/-- isBannedName is the banned-keyword test of `services.py` on the
lower-cased, stripped name: for some keyword `kw`,
`kw == name_lower or " kw " in " name_lower " or
 name_lower.startswith("kw ") or name_lower.endswith(" kw")`. -/
def isBannedName (nameLower : String) : Bool :=
  BANNED_KEYWORDS.any fun kw =>
    kw == nameLower ||
    strContains (" " ++ nameLower ++ " ") (" " ++ kw ++ " ") ||
    nameLower.startsWith (kw ++ " ") ||
    nameLower.endsWith (" " ++ kw)

/-- roundHalfEven rounds a rational to the nearest integer, ties going
to the even integer — the rounding mode of Python's builtin `round`. -/
def roundHalfEven (x : ℚ) : ℤ :=
  let f := ⌊x⌋
  let frac := x - (f : ℚ)
  if frac < 1 / 2 then f
  else if 1 / 2 < frac then f + 1
  else if f % 2 = 0 then f else f + 1

/-- round2 models Python's `round(x, 2)`: round half to even at two
decimal places. -/
def round2 (x : ℚ) : ℚ :=
  (roundHalfEven (100 * x) : ℚ) / 100

/-- RawItem is one element of the model-reply `bill_items` list, viewed
as a Python dict: each of the four keys is present with some JSON value
or absent (`item.get(key, default)` supplies the default). -/
structure RawItem where
  item_name : Option PyVal
  item_quantity : Option PyVal
  item_rate : Option PyVal
  item_amount : Option PyVal

/-- LineItem is one cleaned output row of the sanitizer (the dict
appended to `cleaned` in `services.py`, whose values are floats and a
string). -/
structure LineItem where
  item_name : String
  item_amount : ℚ
  item_rate : ℚ
  item_quantity : ℚ
deriving DecidableEq, Repr

instance {ε α : Type} [DecidableEq ε] [DecidableEq α] : DecidableEq (Except ε α) := fun a b =>
  match a, b with
  | .ok v, .ok v' => decidable_of_iff (v = v') (by simp)
  | .error e, .error e' => decidable_of_iff (e = e') (by simp)
  | .ok _, .error _ => isFalse (fun h => Except.noConfusion h)
  | .error _, .ok _ => isFalse (fun h => Except.noConfusion h)

/-- coerce models `float(item.get(key, dflt) or dflt)`: an absent key
yields the default; a present falsy value yields the default; a present
truthy value goes through `float(...)`. -/
def coerce (v : Option PyVal) (dflt : ℚ) : Except PyErr ℚ :=
  match v with
  | none => .ok dflt
  | some v => if v.truthy then pyFloat v else .ok dflt

/-- tryCoerce3 runs the three numeric coercions of the sanitizer's
`try` block in source order (quantity, rate, amount); the first
exception wins. -/
def tryCoerce3 (it : RawItem) : Except PyErr (ℚ × ℚ × ℚ) :=
  match coerce it.item_quantity 1 with
  | .error e => .error e
  | .ok q =>
    match coerce it.item_rate 0 with
    | .error e => .error e
    | .ok r =>
      match coerce it.item_amount 0 with
      | .error e => .error e
      | .ok a => .ok (q, r, a)

/-- cleanItem is one iteration of the `for item in items` loop of
`clean_and_validate_items`: `.ok none` models `continue` (item
dropped), `.ok (some li)` models `cleaned.append(li)`, and
`.error .typeError` models an uncaught `TypeError` escaping the loop
(only `ValueError` is caught by the `except` clause). -/
def cleanItem (it : RawItem) : Except PyErr (Option LineItem) :=
  let name := pyStrip (pyStr (it.item_name.getD (.vstr "")))
  let nameLower := name.toLower
  if name = "" ∨ nameLower = "unknown" then .ok none
  else if isBannedName nameLower then .ok none
  else
    match tryCoerce3 it with
    | .error .valueError => .ok none
    | .error .typeError => .error .typeError
    | .ok (q, r, a) =>
      let amount := if a = 0 ∧ 0 < r then r * q else a
      .ok (some ⟨name, round2 amount, round2 r, q⟩)

/-- clean_and_validate_items is the Item Sanitizer of `services.py`:
items are processed in order; dropped items contribute nothing; an
uncaught exception (`TypeError`) aborts the whole call. -/
def clean_and_validate_items : List RawItem → Except PyErr (List LineItem)
  | [] => .ok []
  | it :: rest =>
    match cleanItem it with
    | .error e => .error e
    | .ok none => clean_and_validate_items rest
    | .ok (some li) =>
      match clean_and_validate_items rest with
      | .error e => .error e
      | .ok tl => .ok (li :: tl)

/-- isJsonWs recognises the whitespace characters of the JSON grammar. -/
def isJsonWs (c : Char) : Bool :=
  [' ', '\t', '\n', '\r'].contains c

/-- skipWs drops leading JSON whitespace. -/
def skipWs (cs : List Char) : List Char :=
  cs.dropWhile isJsonWs

/-- jsonEscapeMap pairs each single-character JSON escape with the
character it denotes. -/
def jsonEscapeMap : List (Char × Char) :=
  [('"', '"'), ('\\', '\\'), ('/', '/'), ('n', '\n'), ('t', '\t'),
   ('r', '\r'), ('b', Char.ofNat 8), ('f', Char.ofNat 12)]

/-- parseJStringBody consumes the body of a JSON string after the
opening quote, handling the single-character escapes; it returns the
decoded characters and the remainder after the closing quote.
`\uXXXX` escapes are not modelled (no claim involves them). -/
def parseJStringBody : List Char → Option (List Char × List Char)
  | [] => none
  | '"' :: rest => some ([], rest)
  | '\\' :: c :: rest =>
    match jsonEscapeMap.lookup c with
    | none => none
    | some ch =>
      match parseJStringBody rest with
      | none => none
      | some (s, r) => some (ch :: s, r)
  | c :: rest =>
    match parseJStringBody rest with
    | none => none
    | some (s, r) => some (c :: s, r)

/-- parseJNum parses a JSON number literal (`-?int frac? exp?`, no
leading zeros) at the head of the input, returning its exact rational
value and the remainder. -/
def parseJNum (cs : List Char) : Option (ℚ × List Char) :=
  let (sgn, body) : ℚ × List Char :=
    match cs with
    | '-' :: t => (-1, t)
    | t => (1, t)
  let intDs := body.takeWhile isDigit10
  let afterInt := body.dropWhile isDigit10
  if intDs.isEmpty then none
  else if intDs.length > 1 && intDs.headD '0' == '0' then none
  else
    let (fracOk, fracDs, afterFrac) : Bool × List Char × List Char :=
      match afterInt with
      | '.' :: t => (!(t.takeWhile isDigit10).isEmpty, t.takeWhile isDigit10, t.dropWhile isDigit10)
      | t => (true, [], t)
    if !fracOk then none
    else
      let mantissa : ℚ :=
        (digitsToNat intDs : ℚ) + (digitsToNat fracDs : ℚ) / (10 : ℚ) ^ fracDs.length
      match afterFrac with
      | c :: t =>
        if c == 'e' || c == 'E' then
          let (es, t') : ℤ × List Char :=
            match t with
            | '+' :: u => (1, u)
            | '-' :: u => (-1, u)
            | u => (1, u)
          let eds := t'.takeWhile isDigit10
          if eds.isEmpty then none
          else some (sgn * applyExp mantissa (es * (digitsToNat eds : ℤ)), t'.dropWhile isDigit10)
        else some (sgn * mantissa, afterFrac)
      | [] => some (sgn * mantissa, [])

mutual

/-- parseVal parses one JSON value at the head of the input (which must
already have leading whitespace skipped).  The fuel argument bounds
nesting depth; `jsonLoads` supplies enough fuel for any input. -/
def parseVal : ℕ → List Char → Option (PyVal × List Char)
  | 0, _ => none
  | fuel + 1, cs =>
    match cs with
    | [] => none
    | c :: rest =>
      if c == '"' then
        match parseJStringBody rest with
        | some (s, r) => some (.vstr (String.mk s), r)
        | none => none
      else if c == 't' then
        match rest with
        | 'r' :: 'u' :: 'e' :: r => some (.vbool true, r)
        | _ => none
      else if c == 'f' then
        match rest with
        | 'a' :: 'l' :: 's' :: 'e' :: r => some (.vbool false, r)
        | _ => none
      else if c == 'n' then
        match rest with
        | 'u' :: 'l' :: 'l' :: r => some (.vnone, r)
        | _ => none
      else if c == '[' then
        match skipWs rest with
        | ']' :: r => some (.vlist [], r)
        | cs1 =>
          match parseArrayItems fuel cs1 with
          | some (xs, r) => some (.vlist xs, r)
          | none => none
      else if c == Char.ofNat 123 then
        match skipWs rest with
        | c1 :: r =>
          if c1 == Char.ofNat 125 then some (.vdict [], r)
          else
            match parseObjMembers fuel (c1 :: r) with
            | some (kvs, r') => some (.vdict kvs, r')
            | none => none
        | [] => none
      else
        match parseJNum cs with
        | some (q, r) => some (.vnum q, r)
        | none => none

/-- parseArrayItems parses the comma-separated values of a JSON array
up to and including the closing bracket. -/
def parseArrayItems : ℕ → List Char → Option (List PyVal × List Char)
  | 0, _ => none
  | fuel + 1, cs =>
    match parseVal fuel (skipWs cs) with
    | none => none
    | some (v, r) =>
      match skipWs r with
      | ',' :: r' =>
        match parseArrayItems fuel r' with
        | some (xs, r'') => some (v :: xs, r'')
        | none => none
      | ']' :: r' => some ([v], r')
      | _ => none

/-- parseObjMembers parses the comma-separated `"key": value` members
of a JSON object up to and including the closing brace. -/
def parseObjMembers : ℕ → List Char → Option (List (String × PyVal) × List Char)
  | 0, _ => none
  | fuel + 1, cs =>
    match skipWs cs with
    | '"' :: r =>
      match parseJStringBody r with
      | none => none
      | some (k, r1) =>
        match skipWs r1 with
        | ':' :: r2 =>
          match parseVal fuel (skipWs r2) with
          | none => none
          | some (v, r3) =>
            match skipWs r3 with
            | ',' :: r4 =>
              match parseObjMembers fuel r4 with
              | some (kvs, r5) => some ((String.mk k, v) :: kvs, r5)
              | none => none
            | c :: r4 =>
              if c == Char.ofNat 125 then some ([(String.mk k, v)], r4)
              else none
            | [] => none
        | _ => none
    | _ => none

end

/-- jsonLoads models Python's `json.loads`: parse a complete JSON
document, allowing surrounding whitespace only; `none` models
`json.JSONDecodeError`. -/
def jsonLoads (s : String) : Option PyVal :=
  match parseVal (s.length + 1) (skipWs s.data) with
  | some (v, r) => if (skipWs r).isEmpty then some v else none
  | none => none

/-- dictGet models Python `dict.get(k)` on a dict built by `json.loads`
from a member list: a duplicated key keeps its last value. -/
def dictGet (kvs : List (String × PyVal)) (k : String) : Option PyVal :=
  List.lookup k kvs.reverse

/-- Usage models the token-usage record attached to one successful
model reply (`response.usage`). -/
structure Usage where
  prompt_tokens : ℕ
  completion_tokens : ℕ
  total_tokens : ℕ
deriving DecidableEq, Repr

/-- PageExtraction is the dict returned by the Page Extractor for one
page after cleaning: a page-type string and the sanitized items. -/
structure PageExtraction where
  page_type : String
  bill_items : List LineItem
deriving DecidableEq, Repr

/-- CallOutcome models the outside world for one page's model call:
either the awaited API call raises (network error, model error,
timeout), or it returns a reply text together with a usage record. -/
inductive CallOutcome where
  | failure
  | reply (text : String) (usage : Usage)
deriving DecidableEq

/-- safeEmptyPage is the safe empty result of the Page Extractor's
`except` clause: page type `"Bill Detail"`, no items. -/
def safeEmptyPage : PageExtraction :=
  ⟨"Bill Detail", []⟩

/-- toRawItem views one element of `bill_items` as a Python dict; a
non-dict element makes `item.get(...)` raise `AttributeError`, modelled
as `none`. -/
def toRawItem (v : PyVal) : Option RawItem :=
  match v with
  | .vdict kvs =>
    some ⟨dictGet kvs "item_name", dictGet kvs "item_quantity",
          dictGet kvs "item_rate", dictGet kvs "item_amount"⟩
  | _ => none

/-- toRawItems views the `bill_items` value as the iterable consumed by
`clean_and_validate_items`.  Iterating a non-iterable value raises
`TypeError`; iterating a non-empty string or dict yields non-dict
elements whose `.get` raises `AttributeError`; both exceptions reach the
page-level handler, so they are uniformly modelled as `none`.  An empty
string or empty dict iterates zero times, yielding no items. -/
def toRawItems : PyVal → Option (List RawItem)
  | .vlist xs => xs.mapM toRawItem
  | .vstr s => if s = "" then some [] else none
  | .vdict kvs => if kvs.isEmpty then some [] else none
  | _ => none

/-- validPageTypes is the fixed three-value page-type enum checked by
the Page Extractor. -/
def validPageTypes : List String :=
  ["Bill Detail", "Final Bill", "Pharmacy"]

/-- runPage is the body of the `try` block of
`extract_data_from_image_async` after the reply text is in hand:
`json.loads` the text, sanitize `data.get("bill_items", [])`, coerce an
out-of-enum `page_type` to `"Bill Detail"`.  `none` models any raised
exception (decode error, attribute/type error, uncaught `TypeError`
from the sanitizer). -/
def runPage (text : String) : Option PageExtraction :=
  match jsonLoads text with
  | none => none
  | some data =>
    match data with
    | .vdict kvs =>
      let itemsVal := (dictGet kvs "bill_items").getD (.vlist [])
      match toRawItems itemsVal with
      | none => none
      | some raws =>
        match clean_and_validate_items raws with
        | .error _ => none
        | .ok cleaned =>
          let pt : String :=
            match dictGet kvs "page_type" with
            | some (.vstr s) => if s ∈ validPageTypes then s else "Bill Detail"
            | _ => "Bill Detail"
          some ⟨pt, cleaned⟩
    | _ => none

/-- extract_data_from_image_async is the Page Extractor of
`services.py` as a function of the model-call outcome: any failure
(raised call, unparseable or ill-shaped reply) degrades to the safe
empty result with absent usage; a fully successful reply returns the
cleaned page and its usage record. -/
def extract_data_from_image_async (o : CallOutcome) : PageExtraction × Option Usage :=
  match o with
  | .failure => (safeEmptyPage, none)
  | .reply text usage =>
    match runPage text with
    | some pe => (pe, some usage)
    | none => (safeEmptyPage, none)

/-- TokenUsage is the token-usage schema of `models.py`. -/
structure TokenUsage where
  total_tokens : ℕ
  input_tokens : ℕ
  output_tokens : ℕ
deriving DecidableEq, Repr

/-- PageLevelData is the page-level schema of `models.py`: string page
number, page type, and the page's line items. -/
structure PageLevelData where
  page_no : String
  page_type : String
  bill_items : List LineItem
deriving DecidableEq, Repr

/-- ExtractionData is the final data payload of `models.py`. -/
structure ExtractionData where
  pagewise_line_items : List PageLevelData
  total_item_count : ℕ
deriving DecidableEq, Repr

/-- ExtractionResponse is the API response schema of `models.py`. -/
structure ExtractionResponse where
  is_success : Bool
  token_usage : TokenUsage
  data : Option ExtractionData
  error : Option String
deriving DecidableEq, Repr

/-- usagePrompt reads `prompt_tokens` when a usage record is present,
else 0 — the `if usage:` guard plus `getattr(usage, 'prompt_tokens', 0)`
of `main.py`. -/
def usagePrompt : Option Usage → ℕ
  | some u => u.prompt_tokens
  | none => 0

/-- usageCompletion reads `completion_tokens` when present, else 0. -/
def usageCompletion : Option Usage → ℕ
  | some u => u.completion_tokens
  | none => 0

/-- usageTotal reads `total_tokens` when present, else 0. -/
def usageTotal : Option Usage → ℕ
  | some u => u.total_tokens
  | none => 0

/-- processResults is the result-processing loop of `extract_bill_data`
in `main.py`, for the pages from 0-based position `idx` onward: it
builds the PageLevelData list (`page_no = str(idx + 1)`), accumulates
`global_item_count`, and sums the three token counters.  The per-item
re-mapping in the loop applies `str`/`float` to values that are already
a string and floats, so each cleaned item is copied unchanged. -/
def processResults :
    List (PageExtraction × Option Usage) → ℕ → List PageLevelData × ℕ × ℕ × ℕ × ℕ
  | [], _ => ([], 0, 0, 0, 0)
  | (data, usage) :: rest, idx =>
    let prev := processResults rest (idx + 1)
    (⟨toString (idx + 1), data.page_type, data.bill_items⟩ :: prev.1,
     data.bill_items.length + prev.2.1,
     usagePrompt usage + prev.2.2.1,
     usageCompletion usage + prev.2.2.2.1,
     usageTotal usage + prev.2.2.2.2)

/-- extract_bill_data_success is the success path of the
`extract_bill_data` endpoint after `asyncio.gather` returned the
per-page results: a successful envelope with summed token usage, the
ordered page list and the global item count. -/
def extract_bill_data_success
    (results : List (PageExtraction × Option Usage)) : ExtractionResponse :=
  let r := processResults results 0
  ⟨true, ⟨r.2.2.2.2, r.2.2.1, r.2.2.2.1⟩, some ⟨r.1, r.2.1⟩, none⟩

/-- gatherByCompletion models `asyncio.gather` over the per-page
extraction tasks together with an explicit completion order: the tasks
complete in the order given by `order` (a permutation of the 0-based
page indices), each completed result is recorded at its originating
page index, and the recorded results are read out in page-index order —
which is exactly the order contract `asyncio.gather` provides. -/
def gatherByCompletion (f : CallOutcome → PageExtraction × Option Usage)
    (outcomes : List CallOutcome) (order : List ℕ) :
    List (PageExtraction × Option Usage) :=
  let completed := order.map fun i => (i, f (outcomes.getD i .failure))
  (List.range outcomes.length).map fun j =>
    (List.lookup j completed).getD (safeEmptyPage, none)

/-- runPipeline is the endpoint's success path as a function of the
per-page call outcomes and of the completion order chosen by the
scheduler: fan out the Page Extractor, gather in page order, aggregate. -/
def runPipeline (outcomes : List CallOutcome) (order : List ℕ) : ExtractionResponse :=
  extract_bill_data_success
    (gatherByCompletion extract_data_from_image_async outcomes order)

/-- LineItem.toRawDict views a cleaned output row as the Python dict it
is at runtime (`cleaned.append` appends a dict), for feeding the
sanitizer its own output: the values are the name string and the three
float fields. -/
def LineItem.toRawDict (li : LineItem) : RawItem :=
  ⟨some (.vstr li.item_name), some (.vnum li.item_quantity),
   some (.vnum li.item_rate), some (.vnum li.item_amount)⟩

/-- secondPassFixed states the condition under which a second sanitizer
pass leaves an output row unchanged: the quantity is non-zero (a zero
quantity is falsy and would be re-coerced to the default 1.0) and the
row is not a zero-amount/positive-rate row (which would be recomputed). -/
def secondPassFixed (li : LineItem) : Bool :=
  if li.item_quantity = 0 then false
  else if li.item_amount = 0 ∧ 0 < li.item_rate then false
  else true

/-- coercedNonneg states that the sanitizer's numeric coercion of this
item, when it succeeds, yields non-negative quantity, rate and amount. -/
def coercedNonneg (it : RawItem) : Bool :=
  match tryCoerce3 it with
  | .ok (q, r, a) => if 0 ≤ q ∧ 0 ≤ r ∧ 0 ≤ a then true else false
  | .error _ => true

/-- pageCallFails states that this page's model call fails: either the
awaited API call raises, or the reply text does not survive the `try`
block (JSON decode error, ill-shaped data, uncaught coercion error). -/
def pageCallFails : CallOutcome → Bool
  | .failure => true
  | .reply t _ => (runPage t).isNone

/-- dropWhile is idempotent. -/
theorem dropWhile_idem {α : Type} (p : α → Bool) (l : List α) :
    (l.dropWhile p).dropWhile p = l.dropWhile p := by
  induction l with
  | nil => rfl
  | cons a t ih =>
    by_cases h : p a
    · simp [List.dropWhile_cons, h, ih]
    · simp [List.dropWhile_cons, h]

/-- Heads of a dropWhile result fail the predicate. -/
theorem dropWhile_head_not {α : Type} (p : α → Bool) (l : List α) (c : α) (cs : List α)
    (h : l.dropWhile p = c :: cs) : p c = false := by
  have hh := List.head?_dropWhile_not p l
  rw [h] at hh
  simpa using hh

/-- stripChars is idempotent. -/
theorem stripChars_idem (l : List Char) : stripChars (stripChars l) = stripChars l := by
  unfold stripChars
  set m := l.dropWhile isSpace with hm
  set r := m.reverse.dropWhile isSpace with hr
  have h1 : r.reverse.dropWhile isSpace = r.reverse := by
    have hsuf : r <:+ m.reverse := hr ▸ List.dropWhile_suffix isSpace
    have hpre : r.reverse <+: m := by
      refine (List.reverse_suffix).1 ?_
      rw [List.reverse_reverse]
      exact hsuf
    cases hrv : r.reverse with
    | nil => simp
    | cons c cs =>
      obtain ⟨t, ht⟩ := hpre
      rw [hrv] at ht
      have hcm : l.dropWhile isSpace = c :: (cs ++ t) := by
        rw [← hm] at *
        rw [← ht]
        simp
      have hc : isSpace c = false := dropWhile_head_not isSpace l c (cs ++ t) hcm
      simp [List.dropWhile_cons, hc]
  rw [h1, List.reverse_reverse]
  have h2 : r.dropWhile isSpace = r := by
    rw [hr, dropWhile_idem]
  rw [h2]

/-- pyStrip is idempotent. -/
theorem pyStrip_idem (s : String) : pyStrip (pyStrip s) = pyStrip s := by
  unfold pyStrip
  exact congrArg String.mk (stripChars_idem s.data)

/-- roundHalfEven is the identity on integers. -/
theorem roundHalfEven_intCast (n : ℤ) : roundHalfEven (n : ℚ) = n := by
  unfold roundHalfEven
  norm_num [Int.floor_intCast]

/-- round2 is idempotent. -/
theorem round2_idem (x : ℚ) : round2 (round2 x) = round2 x := by
  unfold round2
  rw [show (100 : ℚ) * ((roundHalfEven (100 * x) : ℚ) / 100) =
      (roundHalfEven (100 * x) : ℚ) by ring]
  rw [roundHalfEven_intCast]

/-- roundHalfEven preserves non-negativity. -/
theorem roundHalfEven_nonneg (x : ℚ) (h : 0 ≤ x) : 0 ≤ roundHalfEven x := by
  unfold roundHalfEven
  dsimp only
  have hf : 0 ≤ ⌊x⌋ := Int.floor_nonneg.mpr h
  have hfr : (0 : ℚ) ≤ x - (⌊x⌋ : ℚ) := by
    have := Int.sub_one_lt_floor x
    have h2 := Int.floor_le x
    linarith
  split_ifs <;> omega

/-- round2 preserves non-negativity. -/
theorem round2_nonneg (x : ℚ) (h : 0 ≤ x) : 0 ≤ round2 x := by
  unfold round2
  have h1 : 0 ≤ roundHalfEven (100 * x) := roundHalfEven_nonneg _ (by linarith)
  have h2 : (0 : ℚ) ≤ (roundHalfEven (100 * x) : ℚ) := by exact_mod_cast h1
  positivity

/-- coerce of a present non-zero number is that number. -/
theorem coerce_vnum_ne (x : ℚ) (d : ℚ) (hx : x ≠ 0) :
    coerce (some (.vnum x)) d = .ok x := by
  simp [coerce, PyVal.truthy, pyFloat, hx]

/-- coerce of a present number with default 0 is that number (a zero
value is falsy and replaced by the default 0, which equals it). -/
theorem coerce_vnum_zero_dflt (x : ℚ) :
    coerce (some (.vnum x)) 0 = .ok x := by
  by_cases hx : x = 0
  · subst hx; simp [coerce, PyVal.truthy, pyFloat]
  · exact coerce_vnum_ne x 0 hx

/-- Inversion for a kept item: a successful `cleanItem` output is
exactly the row the sanitizer's rule 3 builds, and the name passed all
the string checks. -/
theorem cleanItem_ok_some_inv (it : RawItem) (li : LineItem)
    (h : cleanItem it = .ok (some li)) :
    ∃ q r a, tryCoerce3 it = .ok (q, r, a) ∧
      li.item_name = pyStrip (pyStr (it.item_name.getD (.vstr ""))) ∧
      li.item_name ≠ "" ∧ li.item_name.toLower ≠ "unknown" ∧
      isBannedName li.item_name.toLower = false ∧
      li.item_quantity = q ∧ li.item_rate = round2 r ∧
      li.item_amount = round2 (if a = 0 ∧ 0 < r then r * q else a) := by
  unfold cleanItem at h
  dsimp only at h
  by_cases h1 : pyStrip (pyStr (it.item_name.getD (PyVal.vstr ""))) = "" ∨
      (pyStrip (pyStr (it.item_name.getD (PyVal.vstr "")))).toLower = "unknown"
  · rw [if_pos h1] at h; exact absurd h (by simp)
  · rw [if_neg h1] at h
    by_cases h2 : isBannedName (pyStrip (pyStr (it.item_name.getD (PyVal.vstr "")))).toLower = true
    · rw [if_pos h2] at h; exact absurd h (by simp)
    · rw [if_neg h2] at h
      cases hc : tryCoerce3 it with
      | error e =>
        rw [hc] at h
        cases e <;> simp at h
      | ok t =>
        obtain ⟨q, r, a⟩ := t
        rw [hc] at h
        simp only [Except.ok.injEq, Option.some.injEq] at h
        push_neg at h1
        refine ⟨q, r, a, rfl, ?_⟩
        subst h
        exact ⟨rfl, h1.1, h1.2, by simpa using h2, rfl, rfl, rfl⟩

/-- Construction for a kept item: if the string checks pass and the
numeric coercion succeeds, `cleanItem` keeps the item and builds
exactly the rule-3 row. -/
theorem cleanItem_ok_construct (it : RawItem) (q r a : ℚ)
    (hc : tryCoerce3 it = .ok (q, r, a))
    (h1 : pyStrip (pyStr (it.item_name.getD (.vstr ""))) ≠ "")
    (h2 : (pyStrip (pyStr (it.item_name.getD (.vstr "")))).toLower ≠ "unknown")
    (h3 : isBannedName ((pyStrip (pyStr (it.item_name.getD (.vstr "")))).toLower) = false) :
    cleanItem it = .ok (some ⟨pyStrip (pyStr (it.item_name.getD (.vstr ""))),
      round2 (if a = 0 ∧ 0 < r then r * q else a), round2 r, q⟩) := by
  unfold cleanItem
  dsimp only
  rw [if_neg (by push_neg; exact ⟨h1, h2⟩), if_neg (by simp [h3]), hc]

/-- Dropping is definitive for banned names: if the normalized name is
banned, `cleanItem` drops the item (whether through rule 1 or rule 2). -/
theorem cleanItem_banned_drop (it : RawItem)
    (h : isBannedName ((pyStrip (pyStr (it.item_name.getD (.vstr "")))).toLower) = true) :
    cleanItem it = .ok none := by
  unfold cleanItem
  dsimp only
  by_cases h1 : pyStrip (pyStr (it.item_name.getD (PyVal.vstr ""))) = "" ∨
      (pyStrip (pyStr (it.item_name.getD (PyVal.vstr "")))).toLower = "unknown"
  · rw [if_pos h1]
  · rw [if_neg h1, if_pos h]

/-- Provenance: every row of a successful sanitizer output was kept by
`cleanItem` from some member of the input list. -/
theorem clean_mem_provenance :
    ∀ (items : List RawItem) (out : List LineItem),
      clean_and_validate_items items = .ok out →
      ∀ li ∈ out, ∃ it ∈ items, cleanItem it = .ok (some li) := by
  intro items
  induction items with
  | nil =>
    intro out h li hli
    simp [clean_and_validate_items] at h
    subst h
    exact absurd hli (List.not_mem_nil li)
  | cons it rest ih =>
    intro out h li hli
    unfold clean_and_validate_items at h
    cases hc : cleanItem it with
    | error e => rw [hc] at h; exact absurd h (by simp)
    | ok o =>
      rw [hc] at h
      cases o with
      | none =>
        obtain ⟨it', hmem, hit'⟩ := ih out h li hli
        exact ⟨it', List.mem_cons_of_mem it hmem, hit'⟩
      | some li' =>
        cases hrest : clean_and_validate_items rest with
        | error e => rw [hrest] at h; exact absurd h (by simp)
        | ok tl =>
          rw [hrest] at h
          simp only [Except.ok.injEq] at h
          subst h
          rcases List.mem_cons.mp hli with rfl | hmem
          · exact ⟨it, List.mem_cons_self it rest, hc⟩
          · obtain ⟨it', hmem', hit'⟩ := ih tl hrest li hmem
            exact ⟨it', List.mem_cons_of_mem it hmem', hit'⟩

/-- Properties every kept row satisfies: its name is strip-fixed,
non-empty, not the placeholder, not banned; its money fields are
round2-fixed. -/
theorem cleanItem_output_props (it : RawItem) (li : LineItem)
    (h : cleanItem it = .ok (some li)) :
    pyStrip li.item_name = li.item_name ∧ li.item_name ≠ "" ∧
    li.item_name.toLower ≠ "unknown" ∧
    isBannedName li.item_name.toLower = false ∧
    round2 li.item_rate = li.item_rate ∧
    round2 li.item_amount = li.item_amount := by
  obtain ⟨q, r, a, _, hname, hne, hunk, hban, _, hrate, hamt⟩ :=
    cleanItem_ok_some_inv it li h
  refine ⟨?_, hne, hunk, hban, ?_, ?_⟩
  · rw [hname]
    exact pyStrip_idem _
  · rw [hrate, round2_idem]
  · rw [hamt, round2_idem]

/-- Second-pass fixed point for one row: feeding a kept row (as the
dict it is) back to `cleanItem` returns it unchanged, provided its
quantity is non-zero and it is not a zero-amount/positive-rate row. -/
theorem cleanItem_toRawDict (it : RawItem) (li : LineItem)
    (h : cleanItem it = .ok (some li))
    (hfix : secondPassFixed li = true) :
    cleanItem li.toRawDict = .ok (some li) := by
  obtain ⟨hstrip, hne, hunk, hban, hrate, hamt⟩ := cleanItem_output_props it li h
  have hq : li.item_quantity ≠ 0 := by
    intro h0
    simp [secondPassFixed, h0] at hfix
  have hra : ¬(li.item_amount = 0 ∧ 0 < li.item_rate) := by
    intro hc
    simp [secondPassFixed, hc.1, hc.2] at hfix
  have hc3 : tryCoerce3 li.toRawDict = .ok (li.item_quantity, li.item_rate, li.item_amount) := by
    unfold tryCoerce3
    rw [show li.toRawDict.item_quantity = some (.vnum li.item_quantity) from rfl,
        show li.toRawDict.item_rate = some (.vnum li.item_rate) from rfl,
        show li.toRawDict.item_amount = some (.vnum li.item_amount) from rfl,
        coerce_vnum_ne _ _ hq, coerce_vnum_zero_dflt, coerce_vnum_zero_dflt]
  have hname : pyStrip (pyStr (li.toRawDict.item_name.getD (.vstr ""))) = li.item_name := by
    rw [show li.toRawDict.item_name = some (.vstr li.item_name) from rfl]
    exact hstrip
  have := cleanItem_ok_construct li.toRawDict _ _ _ hc3
    (by rw [hname]; exact hne) (by rw [hname]; exact hunk) (by rw [hname]; exact hban)
  rw [this, if_neg hra]
  obtain ⟨n, am, rt, qt⟩ := li
  simp only at hname hamt hrate ⊢
  rw [hname, hamt, hrate]

/-- List-level second pass: if every row of a list is kept unchanged by
`cleanItem`, the sanitizer maps the whole list to itself. -/
theorem clean_fixed_list :
    ∀ (out : List LineItem),
      (∀ li ∈ out, cleanItem li.toRawDict = .ok (some li)) →
      clean_and_validate_items (out.map LineItem.toRawDict) = .ok out := by
  intro out
  induction out with
  | nil => intro _; rfl
  | cons li tl ih =>
    intro h
    have hli := h li (List.mem_cons_self li tl)
    have htl := ih fun x hx => h x (List.mem_cons_of_mem li hx)
    rw [List.map_cons]
    simp [clean_and_validate_items, hli, htl]

/-- The aggregation loop emits one PageLevelData per result. -/
theorem processResults_length :
    ∀ (rs : List (PageExtraction × Option Usage)) (idx : ℕ),
      ((processResults rs idx).1).length = rs.length := by
  intro rs
  induction rs with
  | nil => intro idx; rfl
  | cons r rest ih =>
    intro idx
    obtain ⟨data, usage⟩ := r
    simp [processResults, ih (idx + 1)]

/-- The page built for 0-based position `j` (counting from loop start
`idx`) carries page number `str(idx + j + 1)` and the corresponding
result's page type and items. -/
theorem processResults_getElem :
    ∀ (rs : List (PageExtraction × Option Usage)) (idx : ℕ) (j : ℕ)
      (h : j < rs.length) (h' : j < ((processResults rs idx).1).length),
      ((processResults rs idx).1)[j] =
        ⟨toString (idx + j + 1), (rs[j]).1.page_type, (rs[j]).1.bill_items⟩ := by
  intro rs
  induction rs with
  | nil => intro idx j h h'; exact absurd h (by simp)
  | cons r rest ih =>
    intro idx j h h'
    obtain ⟨data, usage⟩ := r
    cases j with
    | zero => simp [processResults]
    | succ j =>
      have hj : j < rest.length := by simpa using h
      have hj' : j < ((processResults rest (idx + 1)).1).length := by
        rw [processResults_length]; exact hj
      have := ih (idx + 1) j hj hj'
      simp only [processResults, List.getElem_cons_succ]
      rw [this]
      congr 2
      omega

/-- The global item count accumulated by the loop is the sum of the
per-page item counts of the pages it built. -/
theorem processResults_count :
    ∀ (rs : List (PageExtraction × Option Usage)) (idx : ℕ),
      (processResults rs idx).2.1 =
        (((processResults rs idx).1).map fun p => p.bill_items.length).sum := by
  intro rs
  induction rs with
  | nil => intro idx; rfl
  | cons r rest ih =>
    intro idx
    obtain ⟨data, usage⟩ := r
    simp [processResults, ih (idx + 1)]

/-- Looking up an index in the completion log finds that index's own
result. -/
theorem lookup_completion {β : Type} (g : ℕ → β) (j : ℕ) :
    ∀ order : List ℕ, j ∈ order →
      List.lookup j (order.map fun i => (i, g i)) = some (g j) := by
  intro order
  induction order with
  | nil => intro h; exact absurd h (List.not_mem_nil j)
  | cons i rest ih =>
    intro h
    rcases eq_or_ne j i with rfl | hne
    · simp [List.lookup]
    · rw [List.map_cons]
      rw [show List.lookup j ((i, g i) :: List.map (fun i => (i, g i)) rest) =
          List.lookup j (List.map (fun i => (i, g i)) rest) by
        simp [List.lookup, beq_false_of_ne hne]]
      exact ih (by rcases List.mem_cons.mp h with rfl | hm; exact absurd rfl hne; exact hm)

/-- When the completion order is a permutation of the page indices,
gathering by completion order is exactly mapping the extractor over the
pages in page order: completion order is fully masked. -/
theorem gatherByCompletion_eq_map
    (f : CallOutcome → PageExtraction × Option Usage)
    (outcomes : List CallOutcome) (order : List ℕ)
    (hperm : order.Perm (List.range outcomes.length)) :
    gatherByCompletion f outcomes order = outcomes.map f := by
  unfold gatherByCompletion
  apply List.ext_getElem
  · simp
  · intro j h1 h2
    simp only [List.getElem_map, List.getElem_range]
    have hjlen : j < outcomes.length := by simpa using h2
    have hj : j ∈ order := hperm.mem_iff.mpr (List.mem_range.mpr hjlen)
    rw [lookup_completion (fun i => f (outcomes.getD i .failure)) j order hj]
    simp [List.getD_eq_getElem?_getD, List.getElem?_eq_getElem hjlen]

/-- itemTotal is the spec's scenario item: a summary row named "Total". -/
def itemTotal : RawItem :=
  ⟨some (.vstr "Total"), none, none, some (.vnum 5000)⟩

/-- itemPara is the spec's scenario item: rate 10, quantity 5, amount 0. -/
def itemPara : RawItem :=
  ⟨some (.vstr "Paracetamol"), some (.vnum 5), some (.vnum 10), some (.vnum 0)⟩

/-- itemZeroQty has every numeric field given as a JSON string, with the
quantity `"0"` — a truthy string that coerces to the float 0.0. -/
def itemZeroQty : RawItem :=
  ⟨some (.vstr "X"), some (.vstr "0"), some (.vstr "10"), some (.vstr "0")⟩

/-- itemUnknown is named by the literal placeholder "unknown", which is
not a banned keyword. -/
def itemUnknown : RawItem :=
  ⟨some (.vstr "unknown"), none, none, some (.vnum 7)⟩

/-- itemListQty has a JSON-array quantity: `float([1])` raises
`TypeError`, which `except ValueError` does not catch. -/
def itemListQty : RawItem :=
  ⟨some (.vstr "A"), some (.vlist [.vnum 1]), none, some (.vnum 5)⟩

/-- itemBadStr has a non-numeric string quantity: `float("abc")` raises
`ValueError`, which the sanitizer catches and skips. -/
def itemBadStr : RawItem :=
  ⟨some (.vstr "C"), some (.vstr "abc"), none, none⟩

/-- itemB is a plain well-formed item. -/
def itemB : RawItem :=
  ⟨some (.vstr "B"), none, none, some (.vnum 5)⟩

/-- itemNegAmt carries a negative amount, which the sanitizer passes
through unchanged. -/
def itemNegAmt : RawItem :=
  ⟨some (.vstr "X"), some (.vnum 1), some (.vnum 1), some (.vnum (-5))⟩

/-- itemZeroQtyNum has the JSON number 0 as quantity (falsy). -/
def itemZeroQtyNum : RawItem :=
  ⟨some (.vstr "Y"), some (.vnum 0), some (.vnum 10), some (.vnum 0)⟩

/-- fencedReply is a valid JSON object wrapped in markdown code fences,
as chat models commonly emit. -/
def fencedReply : String :=
  "```json\n\x7b\"page_type\": \"Bill Detail\", \"bill_items\": []\x7d\n```"

/-- unfencedReply is fencedReply with the code-fence wrapping stripped. -/
def unfencedReply : String :=
  "\x7b\"page_type\": \"Bill Detail\", \"bill_items\": []\x7d"

/-- badPageReply is a reply whose `bill_items` holds one malformed item
(array-valued quantity) next to one well-formed item. -/
def badPageReply : String :=
  "\x7b\"bill_items\": [\x7b\"item_name\": \"A\", \"item_quantity\": [1], \"item_amount\": 5\x7d, \x7b\"item_name\": \"B\", \"item_amount\": 5\x7d]\x7d"

/-- C1 (confirmed).  For every list of per-page call outcomes and every
completion order of the extraction tasks (any permutation of the page
indices), the gathered result list equals the in-page-order map of the
Page Extractor over the outcomes, and the endpoint's
`pagewise_line_items` has exactly one entry per input page, with
`page_no` the strings "1", "2", ..., "N" in order, each entry carrying
the items of its own page's extraction — no page skipped or reordered,
a failed page (modelled by any outcome) still contributing its entry. -/
theorem C1_pagewise_order (outcomes : List CallOutcome) (order : List ℕ)
    (hperm : order.Perm (List.range outcomes.length)) :
    gatherByCompletion extract_data_from_image_async outcomes order =
      outcomes.map extract_data_from_image_async ∧
    ∀ d, (runPipeline outcomes order).data = some d →
      d.pagewise_line_items.length = outcomes.length ∧
      ∀ j (h : j < d.pagewise_line_items.length),
        (d.pagewise_line_items.get ⟨j, h⟩).page_no = toString (j + 1) ∧
        (d.pagewise_line_items.get ⟨j, h⟩).bill_items =
          (extract_data_from_image_async (outcomes.getD j .failure)).1.bill_items := by
  have hmap := gatherByCompletion_eq_map extract_data_from_image_async outcomes order hperm
  refine ⟨hmap, ?_⟩
  intro d hd
  unfold runPipeline extract_bill_data_success at hd
  rw [hmap] at hd
  simp only [Option.some.injEq] at hd
  subst hd
  have hlen : ((processResults (outcomes.map extract_data_from_image_async) 0).1).length =
      outcomes.length := by
    rw [processResults_length, List.length_map]
  refine ⟨hlen, ?_⟩
  intro j hj
  have hjo : j < outcomes.length := by rw [← hlen]; exact hj
  have hjr : j < (outcomes.map extract_data_from_image_async).length := by
    rw [List.length_map]; exact hjo
  have hget := processResults_getElem (outcomes.map extract_data_from_image_async) 0 j hjr hj
  constructor
  · rw [List.get_eq_getElem, hget]
    simp
  · rw [List.get_eq_getElem, hget]
    simp only [List.getElem_map]
    have hD : outcomes.getD j .failure = outcomes[j] :=
      List.getD_eq_getElem outcomes .failure hjo
    rw [hD]

/-- C1 witness: a concrete two-page document whose second page
completes before the first. -/
theorem C1_pagewise_order_witness :
    ([1, 0] : List ℕ).Perm (List.range 2) ∧
    gatherByCompletion extract_data_from_image_async
        [CallOutcome.failure, CallOutcome.reply "bad" ⟨1, 2, 3⟩] [1, 0] =
      [CallOutcome.failure, CallOutcome.reply "bad" ⟨1, 2, 3⟩].map
        extract_data_from_image_async :=
  ⟨by decide,
   (C1_pagewise_order [CallOutcome.failure, CallOutcome.reply "bad" ⟨1, 2, 3⟩]
     [1, 0] (by decide)).1⟩

/-- C2 (confirmed).  Any failing page call — a raised API call or a
reply that does not survive the `try` block — yields exactly the safe
empty result (page type "Bill Detail", no items, absent usage) instead
of propagating; and each page's result is a function of that page's
outcome alone, so one page's failure cannot affect another page's
result. -/
theorem C2_safe_empty_isolation :
    (∀ o : CallOutcome, pageCallFails o = true →
      extract_data_from_image_async o = (safeEmptyPage, none)) ∧
    (∀ (outcomes outcomes' : List CallOutcome) (j : ℕ)
       (h : j < outcomes.length) (h' : j < outcomes'.length),
       outcomes.get ⟨j, h⟩ = outcomes'.get ⟨j, h'⟩ →
       (outcomes.map extract_data_from_image_async).get ⟨j, by simpa using h⟩ =
         (outcomes'.map extract_data_from_image_async).get ⟨j, by simpa using h'⟩) := by
  constructor
  · intro o h
    cases o with
    | failure => rfl
    | reply t u =>
      unfold extract_data_from_image_async
      unfold pageCallFails at h
      dsimp only at h ⊢
      cases hr : runPage t with
      | none => rfl
      | some pe => rw [hr] at h; simp at h
  · intro outcomes outcomes' j h h' heq
    simp only [List.get_eq_getElem, List.getElem_map]
    rw [List.get_eq_getElem, List.get_eq_getElem] at heq
    rw [heq]

/-- C2 witness: a concrete raised call degrades to the safe empty
result, and a page's result is unchanged when an unrelated page's
outcome is swapped from success to failure. -/
theorem C2_safe_empty_isolation_witness :
    pageCallFails .failure = true ∧
    extract_data_from_image_async .failure = (safeEmptyPage, none) ∧
    ([CallOutcome.failure, CallOutcome.reply "bad" ⟨1, 2, 3⟩].map
        extract_data_from_image_async).get ⟨1, by decide⟩ =
      ([CallOutcome.reply "other" ⟨7, 8, 9⟩, CallOutcome.reply "bad" ⟨1, 2, 3⟩].map
        extract_data_from_image_async).get ⟨1, by decide⟩ :=
  ⟨by decide,
   C2_safe_empty_isolation.1 .failure (by decide),
   C2_safe_empty_isolation.2 [CallOutcome.failure, CallOutcome.reply "bad" ⟨1, 2, 3⟩]
     [CallOutcome.reply "other" ⟨7, 8, 9⟩, CallOutcome.reply "bad" ⟨1, 2, 3⟩]
     1 (by decide) (by decide) (by decide)⟩

/-- C3 (corrected) counterexample: the claim says the sanitizer drops
exactly the banned-named items, but the item named "unknown" — whose
normalized name is not banned — is dropped by the placeholder rule. -/
theorem C3_counterexample :
    clean_and_validate_items [itemUnknown] = .ok [] ∧
    isBannedName ((pyStrip (pyStr (itemUnknown.item_name.getD (.vstr "")))).toLower) = false ∧
    pyStrip (pyStr (itemUnknown.item_name.getD (.vstr ""))) = "unknown" := by
  refine ⟨by with_unfolding_all decide, by with_unfolding_all decide, by with_unfolding_all decide⟩

/-- C3 (amended): every item whose normalized (stripped, lower-cased)
name passes the banned-keyword test (equality with a keyword, or
space-separated word containment, including at the start or end) is
dropped; among items whose normalized name is non-empty and not the
placeholder "unknown" and whose numeric coercion succeeds, exactly the
banned ones are dropped; and no output row has a banned name. -/
theorem C3_banned_filter_amended :
    (∀ it : RawItem,
        isBannedName ((pyStrip (pyStr (it.item_name.getD (.vstr "")))).toLower) = true →
        cleanItem it = .ok none) ∧
    (∀ (it : RawItem) (q r a : ℚ),
        tryCoerce3 it = .ok (q, r, a) →
        pyStrip (pyStr (it.item_name.getD (.vstr ""))) ≠ "" →
        (pyStrip (pyStr (it.item_name.getD (.vstr "")))).toLower ≠ "unknown" →
        isBannedName ((pyStrip (pyStr (it.item_name.getD (.vstr "")))).toLower) = false →
        cleanItem it = .ok (some ⟨pyStrip (pyStr (it.item_name.getD (.vstr ""))),
          round2 (if a = 0 ∧ 0 < r then r * q else a), round2 r, q⟩)) ∧
    (∀ (items : List RawItem) (out : List LineItem),
        clean_and_validate_items items = .ok out →
        ∀ li ∈ out, isBannedName li.item_name.toLower = false) := by
  refine ⟨fun it h => cleanItem_banned_drop it h,
          fun it q r a hc h1 h2 h3 => cleanItem_ok_construct it q r a hc h1 h2 h3,
          ?_⟩
  intro items out h li hli
  obtain ⟨it, _, hit⟩ := clean_mem_provenance items out h li hli
  exact (cleanItem_output_props it li hit).2.2.2.1

/-- C3 witness: the banned "Total" row is dropped, the unbanned
"Paracetamol" row is kept as built by rule 3, and its name is unbanned. -/
theorem C3_banned_filter_witness :
    cleanItem itemTotal = .ok none ∧
    cleanItem itemPara = .ok (some ⟨"Paracetamol", 50, 10, 5⟩) ∧
    isBannedName (("Paracetamol" : String).toLower) = false := by
  refine ⟨C3_banned_filter_amended.1 itemTotal (by with_unfolding_all decide), ?_,
    by with_unfolding_all decide⟩
  have h := C3_banned_filter_amended.2.1 itemPara 5 10 0 (by with_unfolding_all decide)
    (by with_unfolding_all decide) (by with_unfolding_all decide) (by with_unfolding_all decide)
  have h2 : (Except.ok (some (⟨pyStrip (pyStr (itemPara.item_name.getD (.vstr ""))),
      round2 (if (0 : ℚ) = 0 ∧ (0 : ℚ) < 10 then 10 * 5 else 0), round2 10, 5⟩ : LineItem)) :
      Except PyErr (Option LineItem)) = .ok (some ⟨"Paracetamol", 50, 10, 5⟩) := by
    with_unfolding_all decide
  rw [h2] at h
  exact h

/-- C4 (corrected) counterexample: the sanitizer is not idempotent.
The item named "X" with every field the JSON string "0"/"10"/"0" is
kept with quantity 0.0 (the string "0" is truthy and coerces to 0.0);
on a second pass that 0.0 is falsy, is re-coerced to the default 1.0,
and the zero amount is recomputed to 10.0 — a different output. -/
theorem C4_counterexample :
    clean_and_validate_items [itemZeroQty] = .ok [⟨"X", 0, 10, 0⟩] ∧
    clean_and_validate_items ([(⟨"X", 0, 10, 0⟩ : LineItem)].map LineItem.toRawDict) =
      .ok [⟨"X", 10, 10, 1⟩] ∧
    (⟨"X", 10, 10, 1⟩ : LineItem) ≠ ⟨"X", 0, 10, 0⟩ := by
  refine ⟨by with_unfolding_all decide, by with_unfolding_all decide,
    by with_unfolding_all decide⟩

/-- C4 (amended): the sanitizer is idempotent on outputs none of whose
rows has a falsy (zero) quantity or a zero amount with positive rate:
re-running it on such an output returns the output unchanged. -/
theorem C4_idempotent_amended (items : List RawItem) (out : List LineItem)
    (h : clean_and_validate_items items = .ok out)
    (hfix : ∀ li ∈ out, secondPassFixed li = true) :
    clean_and_validate_items (out.map LineItem.toRawDict) = .ok out := by
  apply clean_fixed_list
  intro li hli
  obtain ⟨it, _, hit⟩ := clean_mem_provenance items out h li hli
  exact cleanItem_toRawDict it li hit (hfix li hli)

/-- C4 witness: a concrete output with non-zero quantity and non-zero
amount is reproduced exactly by a second sanitizer pass. -/
theorem C4_idempotent_witness :
    clean_and_validate_items [itemPara] = .ok [⟨"Paracetamol", 50, 10, 5⟩] ∧
    clean_and_validate_items
        ([(⟨"Paracetamol", 50, 10, 5⟩ : LineItem)].map LineItem.toRawDict) =
      .ok [⟨"Paracetamol", 50, 10, 5⟩] :=
  ⟨by with_unfolding_all decide,
   C4_idempotent_amended [itemPara] [⟨"Paracetamol", 50, 10, 5⟩]
     (by with_unfolding_all decide) (by with_unfolding_all decide)⟩

/-- C5 (confirmed): a kept item whose coerced amount is exactly 0 and
whose coerced rate is strictly positive is output with amount
`round(rate * quantity, 2)`. -/
theorem C5_zero_amount_recompute (it : RawItem) (li : LineItem) (q r a : ℚ)
    (hc : tryCoerce3 it = .ok (q, r, a)) (ha : a = 0) (hr : 0 < r)
    (h : cleanItem it = .ok (some li)) :
    li.item_amount = round2 (r * q) := by
  obtain ⟨q', r', a', hc', _, _, _, _, _, _, hamt⟩ := cleanItem_ok_some_inv it li h
  rw [hc] at hc'
  simp only [Except.ok.injEq, Prod.mk.injEq] at hc'
  obtain ⟨hq', hr', ha'⟩ := hc'
  subst hq' hr' ha'
  rw [hamt, if_pos ⟨ha, hr⟩]

/-- C5 witness: the spec's Paracetamol scenario (rate 10, quantity 5,
amount 0) yields output amount `round(10 * 5, 2) = 50`. -/
theorem C5_zero_amount_recompute_witness :
    tryCoerce3 itemPara = .ok (5, 10, 0) ∧
    cleanItem itemPara = .ok (some ⟨"Paracetamol", 50, 10, 5⟩) ∧
    (⟨"Paracetamol", 50, 10, 5⟩ : LineItem).item_amount = round2 (10 * 5) :=
  ⟨by with_unfolding_all decide, by with_unfolding_all decide,
   C5_zero_amount_recompute itemPara ⟨"Paracetamol", 50, 10, 5⟩ 5 10 0
     (by with_unfolding_all decide) rfl (by norm_num) (by with_unfolding_all decide)⟩

/-- C6 (corrected) counterexample: the code performs no fallback parse.
A reply that is a valid JSON object (its unfenced body parses and is
processed successfully) wrapped in markdown code fences fails
`json.loads` and yields the safe empty result, where the claim says it
would be successfully parsed. -/
theorem C6_counterexample :
    runPage unfencedReply = some ⟨"Bill Detail", []⟩ ∧
    (jsonLoads fencedReply).isNone = true ∧
    extract_data_from_image_async (.reply fencedReply ⟨1, 2, 3⟩) = (safeEmptyPage, none) := by
  refine ⟨by with_unfolding_all decide, by with_unfolding_all decide,
    by with_unfolding_all decide⟩

/-- C6 (amended): the Page Extractor attempts no fallback parse at all —
every reply whose text `json.loads` cannot parse (markdown-fenced JSON
included) is treated as a failed call and degrades to the safe empty
result with absent usage. -/
theorem C6_no_fallback_amended (text : String) (usage : Usage)
    (h : (jsonLoads text).isNone = true) :
    extract_data_from_image_async (.reply text usage) = (safeEmptyPage, none) := by
  have hrp : runPage text = none := by
    unfold runPage
    rw [Option.isNone_iff_eq_none.mp h]
  unfold extract_data_from_image_async
  dsimp only
  rw [hrp]

/-- C6 witness: the fenced reply is unparseable and degrades to the
safe empty result. -/
theorem C6_no_fallback_witness :
    (jsonLoads fencedReply).isNone = true ∧
    extract_data_from_image_async (.reply fencedReply ⟨4, 5, 9⟩) = (safeEmptyPage, none) :=
  ⟨by with_unfolding_all decide,
   C6_no_fallback_amended fencedReply ⟨4, 5, 9⟩ (by with_unfolding_all decide)⟩

/-- C7 (code_bug): the claim matches the code's own intent ("Skip rows
with bad math data"), but `except ValueError` does not catch the
`TypeError` that `float` raises on a list-valued field.  One malformed
item (array-valued quantity) aborts the whole sanitizer call, and the
page degrades to the safe empty result, losing the well-formed item "B"
that succeeds on its own; a `ValueError`-malformed item (non-numeric
string) is, by contrast, skipped silently as the claim describes. -/
theorem C7_typeerror_fails_page :
    clean_and_validate_items [itemListQty, itemB] = .error .typeError ∧
    clean_and_validate_items [itemB] = .ok [⟨"B", 5, 0, 1⟩] ∧
    clean_and_validate_items [itemBadStr, itemB] = .ok [⟨"B", 5, 0, 1⟩] ∧
    extract_data_from_image_async (.reply badPageReply ⟨1, 2, 3⟩) = (safeEmptyPage, none) := by
  refine ⟨by with_unfolding_all decide, by with_unfolding_all decide,
    by with_unfolding_all decide, by with_unfolding_all decide⟩

/-- C8 (confirmed): in every successful extraction response, the
`total_item_count` field equals the sum over `pagewise_line_items` of
the length of each entry's `bill_items`. -/
theorem C8_total_count (results : List (PageExtraction × Option Usage))
    (d : ExtractionData) (h : (extract_bill_data_success results).data = some d) :
    d.total_item_count =
      (d.pagewise_line_items.map fun p => p.bill_items.length).sum := by
  unfold extract_bill_data_success at h
  dsimp only at h
  simp only [Option.some.injEq] at h
  subst h
  exact processResults_count results 0

/-- C8 witness: a concrete two-page response whose count 1 equals the
sum of per-page item counts 1 + 0. -/
theorem C8_total_count_witness :
    (extract_bill_data_success
        [(⟨"Pharmacy", [⟨"B", 5, 0, 1⟩]⟩, none), (safeEmptyPage, none)]).data =
      some ⟨[⟨"1", "Pharmacy", [⟨"B", 5, 0, 1⟩]⟩, ⟨"2", "Bill Detail", []⟩], 1⟩ ∧
    (1 : ℕ) =
      (([⟨"1", "Pharmacy", [⟨"B", 5, 0, 1⟩]⟩, ⟨"2", "Bill Detail", []⟩] :
          List PageLevelData).map fun p => p.bill_items.length).sum :=
  ⟨by with_unfolding_all decide,
   C8_total_count [(⟨"Pharmacy", [⟨"B", 5, 0, 1⟩]⟩, none), (safeEmptyPage, none)]
     ⟨[⟨"1", "Pharmacy", [⟨"B", 5, 0, 1⟩]⟩, ⟨"2", "Bill Detail", []⟩], 1⟩
     (by with_unfolding_all decide)⟩

/-- C9 (corrected) counterexample: the sanitizer enforces no
non-negativity.  An input row with amount −5 (rate 1, quantity 1) is
kept with output amount −5 < 0, where the claim says every output
amount is non-negative even on negative inputs. -/
theorem C9_counterexample :
    clean_and_validate_items [itemNegAmt] = .ok [⟨"X", -5, 1, 1⟩] ∧
    (⟨"X", -5, 1, 1⟩ : LineItem).item_amount < 0 := by
  refine ⟨by with_unfolding_all decide, by norm_num⟩

/-- C9 (amended): every output row has a non-empty name and
round2-fixed (two-decimal) money fields; and when every input item's
coerced quantity, rate and amount are non-negative, the output fields
are non-negative as well.  Unconditional non-negativity fails (see the
counterexample): negative inputs pass through. -/
theorem C9_invariants_amended (items : List RawItem) (out : List LineItem)
    (h : clean_and_validate_items items = .ok out) :
    ∀ li ∈ out, li.item_name ≠ "" ∧
      round2 li.item_amount = li.item_amount ∧
      round2 li.item_rate = li.item_rate ∧
      ((∀ it ∈ items, coercedNonneg it = true) →
        0 ≤ li.item_amount ∧ 0 ≤ li.item_rate ∧ 0 ≤ li.item_quantity) := by
  intro li hli
  obtain ⟨it, hmem, hit⟩ := clean_mem_provenance items out h li hli
  obtain ⟨_, hne, _, _, hrate, hamt⟩ := cleanItem_output_props it li hit
  refine ⟨hne, hamt, hrate, ?_⟩
  intro hnn
  have hcn := hnn it hmem
  obtain ⟨q, r, a, hc, _, _, _, _, hq, hr, ha⟩ := cleanItem_ok_some_inv it li hit
  unfold coercedNonneg at hcn
  rw [hc] at hcn
  dsimp only at hcn
  have hnn3 : 0 ≤ q ∧ 0 ≤ r ∧ 0 ≤ a := by
    by_contra hcon
    rw [if_neg hcon] at hcn
    exact Bool.false_ne_true hcn
  refine ⟨?_, ?_, ?_⟩
  · rw [ha]
    apply round2_nonneg
    split
    · exact mul_nonneg hnn3.2.1 hnn3.1
    · exact hnn3.2.2
  · rw [hr]
    exact round2_nonneg r hnn3.2.1
  · rw [hq]
    exact hnn3.1

/-- C9 witness: a concrete all-non-negative input yields a kept row
with non-negative fields. -/
theorem C9_invariants_witness :
    clean_and_validate_items [itemPara] = .ok [⟨"Paracetamol", 50, 10, 5⟩] ∧
    (⟨"Paracetamol", 50, 10, 5⟩ : LineItem).item_name = "Paracetamol" ∧
    0 ≤ (⟨"Paracetamol", 50, 10, 5⟩ : LineItem).item_amount ∧
    0 ≤ (⟨"Paracetamol", 50, 10, 5⟩ : LineItem).item_rate ∧
    0 ≤ (⟨"Paracetamol", 50, 10, 5⟩ : LineItem).item_quantity := by
  have H := C9_invariants_amended [itemPara] [⟨"Paracetamol", 50, 10, 5⟩]
    (by with_unfolding_all decide) ⟨"Paracetamol", 50, 10, 5⟩ (by simp)
  have HN := H.2.2.2 (by
    intro it hm
    rw [List.mem_singleton] at hm
    subst hm
    with_unfolding_all decide)
  exact ⟨by with_unfolding_all decide, rfl, HN.1, HN.2.1, HN.2.2⟩

/-- C10 (confirmed): falsy values — not only missing or null ones —
are replaced by the coercion defaults: any falsy present value (the
number 0, the empty string, empty containers, False, None) coerces to
the field's default (1.0 for quantity, 0.0 for rate and amount); a
kept item whose quantity field is the number 0 or the empty string
gets quantity 1.0, and its zero amount with positive rate is then
recomputed as `round(rate * 1.0, 2)`. -/
theorem C10_falsy_coercion :
    (∀ (v : PyVal) (d : ℚ), v.truthy = false → coerce (some v) d = .ok d) ∧
    (∀ (it : RawItem) (li : LineItem) (q r a : ℚ),
        (it.item_quantity = some (.vnum 0) ∨ it.item_quantity = some (.vstr "")) →
        tryCoerce3 it = .ok (q, r, a) →
        cleanItem it = .ok (some li) →
        q = 1 ∧ li.item_quantity = 1 ∧
          (a = 0 → 0 < r → li.item_amount = round2 (r * 1))) := by
  constructor
  · intro v d h
    simp [coerce, h]
  · intro it li q r a hqty hc hclean
    have hcOrig := hc
    have hq1 : coerce it.item_quantity 1 = .ok 1 := by
      rcases hqty with h | h <;> rw [h] <;> simp [coerce, PyVal.truthy]
    unfold tryCoerce3 at hc
    rw [hq1] at hc
    dsimp only at hc
    have hq : q = 1 := by
      cases h2 : coerce it.item_rate 0 with
      | error e => rw [h2] at hc; exact absurd hc (by simp)
      | ok r0 =>
        rw [h2] at hc
        dsimp only at hc
        cases h3 : coerce it.item_amount 0 with
        | error e => rw [h3] at hc; exact absurd hc (by simp)
        | ok a0 =>
          rw [h3] at hc
          simp only [Except.ok.injEq, Prod.mk.injEq] at hc
          exact hc.1.symm
    obtain ⟨q', r', a', hc', _, _, _, _, hliq, _, hamt⟩ := cleanItem_ok_some_inv it li hclean
    rw [hcOrig] at hc'
    simp only [Except.ok.injEq, Prod.mk.injEq] at hc'
    obtain ⟨hq', hr', ha'⟩ := hc'
    subst hq' hr' ha'
    refine ⟨hq, by rw [hliq, hq], ?_⟩
    intro ha0 hr0
    rw [hamt, if_pos ⟨ha0, hr0⟩, hq]

/-- C10 witness: a kept item with the JSON number 0 as quantity gets
quantity 1.0 and amount `round(10 * 1, 2) = 10`. -/
theorem C10_falsy_coercion_witness :
    coerce (some (.vstr "")) 1 = .ok 1 ∧
    tryCoerce3 itemZeroQtyNum = .ok (1, 10, 0) ∧
    cleanItem itemZeroQtyNum = .ok (some ⟨"Y", 10, 10, 1⟩) ∧
    (⟨"Y", 10, 10, 1⟩ : LineItem).item_quantity = 1 ∧
    (⟨"Y", 10, 10, 1⟩ : LineItem).item_amount = round2 (10 * 1) := by
  refine ⟨C10_falsy_coercion.1 (.vstr "") 1 (by with_unfolding_all decide),
    by with_unfolding_all decide, by with_unfolding_all decide, ?_, ?_⟩
  · exact (C10_falsy_coercion.2 itemZeroQtyNum ⟨"Y", 10, 10, 1⟩ 1 10 0 (Or.inl rfl)
      (by with_unfolding_all decide) (by with_unfolding_all decide)).2.1
  · exact (C10_falsy_coercion.2 itemZeroQtyNum ⟨"Y", 10, 10, 1⟩ 1 10 0 (Or.inl rfl)
      (by with_unfolding_all decide) (by with_unfolding_all decide)).2.2 rfl (by norm_num)
